import Mathlib

/-!
Shallow embedding of `src/app.py` (a Flask service exposing `/search`,
`/info`, `/download` plus a startup sweep of the download directory).

Strings from the Python side are modelled as `List Char` (`Str`), the
filesystem as the list of currently existing paths (`FS`).  Python's
optional / possibly-missing JSON fields are modelled with `Option`;
`none` stands for an absent (or null) key unless noted otherwise.
The external extraction capability (`yt_dlp.YoutubeDL.extract_info`) is
an oracle parameter of each handler; each handler records whether the
oracle was invoked, so "the adapter was never called" is observable.
-/

abbrev Str := List Char

abbrev FS := List Str

/-- Python `str.strip()`: drop whitespace from both ends. -/
def pyStrip (s : Str) : Str :=
  ((s.dropWhile Char.isWhitespace).reverse.dropWhile Char.isWhitespace).reverse

/-- Truthiness of an optional string value (`None` and `""` are falsy). -/
def pyTruthyStr (o : Option Str) : Bool :=
  match o with
  | none => false
  | some s => !s.isEmpty

/-- Python `a or b` for an optional string `a` with fallback `b`. -/
def pyOrStr (a : Option Str) (b : Str) : Str :=
  match a with
  | none => b
  | some s => if s.isEmpty then b else s

/-- Python f-string interpolation of a possibly-`None` value:
`None` prints as the four characters `None`. -/
def pyFStrOpt (o : Option Str) : Str :=
  match o with
  | none => "None".data
  | some s => s

/-- Substring test: does `hay` contain `needle` as a contiguous substring?
(Embeds Python's `needle in hay` on strings.) -/
def subOf (needle : Str) : Str → Bool
  | [] => needle.isEmpty
  | c :: rest => needle.isPrefixOf (c :: rest) || subOf needle rest

/-- Index of the last occurrence of `c` in the list (Python `str.rfind`,
with `none` for "not found"). -/
def rfindIdx (c : Char) : List Char → Option Nat
  | [] => none
  | a :: l =>
    match rfindIdx c l with
    | some i => some (i + 1)
    | none => if a = c then some 0 else none

/-- Python `rfind`'s `-1` convention for a missing character. -/
def optIdx : Option Nat → Int
  | none => -1
  | some n => (n : Int)

/-- Embedding of CPython `posixpath.splitext`: split at the last `.` of the
last path component, unless every character between the last `/` and that
`.` is itself a dot (leading dots do not start an extension). -/
def splitextList (p : List Char) : List Char × List Char :=
  let sepIndex := optIdx (rfindIdx '/' p)
  let dotIndex := optIdx (rfindIdx '.' p)
  if sepIndex < dotIndex then
    let fStart := (sepIndex + 1).toNat
    let seg := (p.drop fStart).take (dotIndex.toNat - fStart)
    if seg.any (fun ch => ch != '.') then
      (p.take dotIndex.toNat, p.drop dotIndex.toNat)
    else (p, [])
  else (p, [])

/-- `os.path.splitext` on the string model. -/
def os_path_splitext (p : Str) : Str × Str := splitextList p

/-- `os.path.exists` against an explicit filesystem. -/
def os_path_exists (fs : FS) (p : Str) : Bool := fs.contains p

/-- `os.remove`: deletes the path, raising (`Except.error`) when the path is
absent (`FileNotFoundError`) or when the ambient fault oracle says the
deletion fails (permissions, directory, ...). -/
def os_remove (fs : FS) (p : Str) (fault : Bool) : Except Str FS :=
  if fault then .error "OSError".data
  else if fs.contains p then .ok (fs.filter (fun q => q != p))
  else .error "FileNotFoundError".data

/-- Body of `cleanup_file` (lines 30-33 of `app.py`): the code inside the
`try`, which may raise. -/
def cleanup_body (fs : FS) (p : Str) (fault : Bool) : Except Str FS :=
  if os_path_exists fs p then os_remove fs p fault else .ok fs

/-- `cleanup_file` (lines 29-35): delete-if-exists with every exception
caught and logged, so the call itself never raises. -/
def cleanup_file (fs : FS) (p : Str) (fault : Bool) : FS :=
  match cleanup_body fs p fault with
  | .ok fs' => fs'
  | .error _ => fs

/-- Allow-listed platform domains (line 22). -/
def domains : List Str := ["youtube.com".data, "youtu.be".data]

/-- `is_valid_youtube_url` (lines 21-27): substring match of each allow-listed
domain against `urlparse(url).netloc`; `urlparse` is stdlib and is modelled
by the oracle `netlocOf`, with `none` standing for a raised exception
(caught, returning `False`). -/
def is_valid_youtube_url (netlocOf : Str → Option Str) (url : Str) : Bool :=
  match netlocOf url with
  | none => false
  | some netloc => domains.any (fun d => subOf d netloc)

/-! Search handler (`/search`, lines 37-73). -/

/-- One element of a raw thumbnail list as returned by the extractor. -/
structure RawThumb where
  url : Option Str
  deriving Repr, DecidableEq

/-- One raw entry of the extractor's flat search result.  `thumbnails = none`
models an entry without a `thumbnails` key (so the handler's default
`[{}]` applies); `some []` models a key explicitly holding an empty list. -/
structure RawVideo where
  id : Option Str
  title : Option Str
  duration : Option Nat
  thumbnails : Option (List RawThumb)
  channel : Option Str
  uploader : Option Str
  deriving Repr, DecidableEq

/-- Outcome of `ydl.extract_info` for a search: either a raised exception or
a result dict whose `entries` key may be absent; a `none` list element is a
falsy entry that line 58 skips. -/
inductive SearchOutcome where
  | err (msg : Str)
  | ok (entries : Option (List (Option RawVideo)))
  deriving Repr, DecidableEq

/-- One formatted entry of the `/search` response (lines 60-67). -/
structure VideoSummary where
  id : Option Str
  title : Option Str
  url : Str
  duration : Option Nat
  thumbnail : Str
  channel : Str
  deriving Repr, DecidableEq

/-- HTTP result of `/search`: 400, 200 with a list, or 500 with
`{"error": "Search failed", "details": ...}`. -/
inductive SearchRes where
  | badRequest (msg : Str)
  | videos (vs : List VideoSummary)
  | failure (error details : Str)
  deriving Repr, DecidableEq

/-- Line 65, `video.get('thumbnails', [{}])[-1].get('url', '')`: indexing
`[-1]` raises `IndexError` on an explicitly empty list; a missing key falls
back to `[{}]`, whose last element has no `url`. -/
def getThumb (rv : RawVideo) : Except Str Str :=
  match rv.thumbnails with
  | none => .ok ((RawThumb.mk none).url.getD [])
  | some ts =>
    match ts.getLast? with
    | none => .error "IndexError: list index out of range".data
    | some t => .ok (t.url.getD [])

/-- Lines 60-67: the dict appended for one non-falsy entry, given its
already-computed thumbnail string. -/
def mkSummary (rv : RawVideo) (thumb : Str) : VideoSummary :=
  { id := rv.id
    title := rv.title
    url := "https://youtu.be/".data ++ pyFStrOpt rv.id
    duration := rv.duration
    thumbnail := thumb
    channel := pyOrStr rv.channel (rv.uploader.getD "Unknown".data) }

/-- The loop of lines 56-67: builds `formatted_videos`, propagating the first
exception raised while formatting an entry. -/
def formatVideos : List (Option RawVideo) → Except Str (List VideoSummary)
  | [] => .ok []
  | none :: rest => formatVideos rest
  | some rv :: rest => do
    let thumb ← getThumb rv
    let tail ← formatVideos rest
    .ok (mkSummary rv thumb :: tail)

/-- `search_video` (lines 37-73): trims the query, rejects an empty one with
400, and converts any exception from extraction or formatting into a 500
`Search failed` response carrying the exception text. -/
def search_video (query : Str) (oracle : SearchOutcome) : SearchRes :=
  let q := pyStrip query
  if q.isEmpty then .badRequest "No search query provided".data
  else
    match oracle with
    | .err m => .failure "Search failed".data m
    | .ok entries =>
      match formatVideos (entries.getD []) with
      | .error e => .failure "Search failed".data e
      | .ok vs => .videos vs

/-! Info handler (`/info`, lines 75-116). -/

/-- One raw entry of the extractor's `formats` list. -/
structure RawFormat where
  format_id : Option Str
  ext : Option Str
  resolution : Option Str
  height : Option Nat
  filesize : Option Nat
  format_note : Option Str
  url : Option Str
  vcodec : Option Str
  deriving Repr, DecidableEq

/-- Raw metadata dict returned by the extractor for a single video. -/
structure RawInfo where
  id : Option Str
  title : Option Str
  webpage_url : Option Str
  duration : Option Nat
  thumbnail : Option Str
  channel : Option Str
  uploader : Option Str
  formats : Option (List RawFormat)
  deriving Repr, DecidableEq

/-- Outcome of `ydl.extract_info` for `/info`. -/
inductive InfoOutcome where
  | err (msg : Str)
  | ok (info : RawInfo)
  deriving Repr, DecidableEq

/-- A value that is either a string or a number (the `resolution` field mixes
`f.get('resolution')` with the integer `height`). -/
inductive PyVal where
  | str (s : Str)
  | num (n : Nat)
  deriving Repr, DecidableEq

/-- One surfaced encoding entry of the `/info` response (lines 95-102). -/
structure FormatEntry where
  itag : Option Str
  ext : Option Str
  resolution : PyVal
  filesize : Nat
  format_note : Str
  url : Str
  deriving Repr, DecidableEq

/-- The `/info` response payload (lines 104-112). -/
structure VideoDetail where
  id : Option Str
  title : Option Str
  url : Option Str
  duration : Option Nat
  thumbnail : Option Str
  channel : Str
  formats : List FormatEntry
  deriving Repr, DecidableEq

/-- HTTP result of `/info`: 400, 200, or 500 with a generic message. -/
inductive InfoRes where
  | badRequest (msg : Str)
  | detail (d : VideoDetail)
  | failure (msg : Str)
  deriving Repr, DecidableEq

/-- `/info` output together with whether the extractor was invoked. -/
structure InfoOutput where
  result : InfoRes
  adapterCalled : Bool
  deriving Repr, DecidableEq

/-- Line 94's filter: `f.get('url') and f.get('vcodec') != 'none'`.  A falsy
(absent or empty) url excludes the entry; only a codec explicitly equal to
the string `none` excludes it (an absent codec passes). -/
def formatFilter (f : RawFormat) : Bool :=
  pyTruthyStr f.url && !(f.vcodec == some "none".data)

/-- Line 98: `f.get('resolution') or f.get('height', 'audio')`. -/
def resolution_of (f : RawFormat) : PyVal :=
  let fallback :=
    match f.height with
    | some h => PyVal.num h
    | none => PyVal.str "audio".data
  match f.resolution with
  | some s => if s.isEmpty then fallback else .str s
  | none => fallback

/-- Lines 95-102: the dict appended for one surviving format. -/
def translateFormat (f : RawFormat) : FormatEntry :=
  { itag := f.format_id
    ext := f.ext
    resolution := resolution_of f
    filesize := f.filesize.getD 0
    format_note := f.format_note.getD []
    url := f.url.getD [] }

/-- `get_video_info` (lines 75-116): validates the URL (400 before any
extraction), then filters and translates the raw formats; any extraction
exception becomes a 500 with a generic message. -/
def get_video_info (netlocOf : Str → Option Str) (url : Str)
    (oracle : InfoOutcome) : InfoOutput :=
  let u := pyStrip url
  if u.isEmpty || !is_valid_youtube_url netlocOf u then
    ⟨.badRequest "Invalid YouTube URL".data, false⟩
  else
    match oracle with
    | .err _ => ⟨.failure "Could not fetch video info".data, true⟩
    | .ok info =>
      ⟨.detail
        { id := info.id
          title := info.title
          url := info.webpage_url
          duration := info.duration
          thumbnail := info.thumbnail
          channel := pyOrStr info.channel (info.uploader.getD [])
          formats := ((info.formats.getD []).filter formatFilter).map translateFormat },
        true⟩

/-! Download handler (`/download`, lines 118-186) and startup sweep. -/

/-- A post-processor entry of `ydl_opts['postprocessors']`. -/
structure PP where
  key : String
  preferredcodec : String
  preferredquality : String
  deriving Repr, DecidableEq

/-- The option dict handed to `YoutubeDL` by `download_video`. -/
structure YdlOpts where
  outtmpl : Str
  quiet : Bool
  noplaylist : Bool
  cookiefile : Option Str
  format : Option String
  postprocessors : List PP
  deriving Repr, DecidableEq

/-- The download directory constant (line 18) followed by the separator
that `os.path.join` inserts. -/
def downloadsDirSlash : Str := "temp_downloads/".data

/-- Lines 139-163: the option dict, given the cookie file selected by
line 145's `cookies_path and os.path.exists(cookies_path)` check. -/
def build_ydl_opts (cookiefile : Option Str) (format_type : String)
    (itag : Option String) : YdlOpts :=
  let base : YdlOpts :=
    { outtmpl := downloadsDirSlash ++ "%(id)s.%(ext)s".data
      quiet := true
      noplaylist := true
      cookiefile := cookiefile
      format := none
      postprocessors := [] }
  if format_type = "mp3" then
    { base with
        format := some "bestaudio/best"
        postprocessors := [⟨"FFmpegExtractAudio", "mp3", "192"⟩] }
  else
    match itag with
    | some t => if t = "" then { base with format := some "bestvideo[ext=mp4]+bestaudio[ext=m4a]/best[ext=mp4]" }
                else { base with format := some t }
    | none => { base with format := some "bestvideo[ext=mp4]+bestaudio[ext=m4a]/best[ext=mp4]" }

/-- The fields of the extractor's info dict that `download_video` reads. -/
structure VideoInfo where
  id : Str
  ext : Str
  title : Str
  deriving Repr, DecidableEq

/-- Outcome of `ydl.extract_info(url, download=True)`: success with the video
info, or a raised exception; either way `created` lists the files the
extractor wrote into the download directory before returning or raising. -/
inductive FetchOutcome where
  | ok (info : VideoInfo) (created : List Str)
  | err (msg : Str) (created : List Str)
  deriving Repr, DecidableEq

/-- `ydl.prepare_filename(info)` under the template of line 140:
`temp_downloads/<id>.<ext>` with the info dict's own extension. -/
def prepare_filename (info : VideoInfo) : Str :=
  downloadsDirSlash ++ (info.id ++ '.' :: info.ext)

/-- Lines 167-169: the streamed path is the prepared filename, with its
extension replaced by `.mp3` when the requested format is `mp3`. -/
def finalize_filename (prepared : Str) (format_type : String) : Str :=
  if format_type = "mp3" then (os_path_splitext prepared).1 ++ ".mp3".data
  else prepared

/-- HTTP result of `/download`: 400, a file response (Flask `send_file` with
mimetype and `download_name`), or 500 with `{"error": "Download failed"}`. -/
inductive DlResult where
  | badRequest (msg : Str)
  | fileResponse (filename : Str) (mimetype : String) (downloadName : Str)
  | serverError (error details : Str)
  deriving Repr, DecidableEq

/-- `/download` output: the HTTP result, the filesystem after the handler
returns (the close callback has not yet run), whether the extractor was
invoked, and the option dict it was invoked with. -/
structure DlOutput where
  result : DlResult
  fs : FS
  adapterCalled : Bool
  optsUsed : Option YdlOpts
  deriving Repr, DecidableEq

/-- Line 145's `cookies_path and os.path.exists(cookies_path)`: the cookie
file actually passed on to the extractor, if any. -/
def select_cookiefile (fs : FS) (cookiesEnv : Option Str) : Option Str :=
  match cookiesEnv with
  | none => none
  | some p => if !p.isEmpty && os_path_exists fs p then some p else none

/-- `download_video` (lines 118-186).  `netlocOf` models `urlparse`,
`cookiesEnv` the `COOKIES_FILE` environment variable, `fetch` the extractor.
`send_file` raises (caught by line 184's `except`) when the finalized path
does not exist. -/
def download_video (netlocOf : Str → Option Str) (fs : FS)
    (cookiesEnv : Option Str) (url : Str) (format_type : String)
    (itag : Option String) (fetch : YdlOpts → Str → FetchOutcome) : DlOutput :=
  let u := pyStrip url
  if u.isEmpty || !is_valid_youtube_url netlocOf u then
    ⟨.badRequest "Invalid YouTube URL".data, fs, false, none⟩
  else
    let opts := build_ydl_opts (select_cookiefile fs cookiesEnv) format_type itag
    match fetch opts u with
    | .err msg created =>
      ⟨.serverError "Download failed".data msg, fs ++ created, true, some opts⟩
    | .ok info created =>
      let filename := finalize_filename (prepare_filename info) format_type
      let fs' := fs ++ created
      if os_path_exists fs' filename then
        ⟨.fileResponse filename
            (if format_type = "mp3" then "audio/mp3" else "video/mp4")
            (info.title.take 50 ++ '.' :: format_type.data),
          fs', true, some opts⟩
      else
        ⟨.serverError "Download failed".data "FileNotFoundError".data, fs', true, some opts⟩

/-- The `@response.call_on_close` callback (lines 178-180): once the response
closes — however it ends — `cleanup_file` runs on the streamed path.  On a
non-file response nothing runs. -/
def response_close (o : DlOutput) (fault : Bool) : FS :=
  match o.result with
  | .fileResponse f _ _ => cleanup_file o.fs f fault
  | _ => o.fs

/-- The `__main__` sweep (lines 193-194): `os.listdir` yields the entry names
(`entries`), and each is deleted via `cleanup_file(os.path.join(dir, name))`;
`fault` says which deletions fail (and are merely logged). -/
def startup_sweep (entries : List Str) (fs : FS) (fault : Str → Bool) : FS :=
  entries.foldl
    (fun acc name =>
      cleanup_file acc (downloadsDirSlash ++ name) (fault (downloadsDirSlash ++ name)))
    fs

/-! Helper lemmas. -/

lemma rfindIdx_eq_none {c : Char} {l : List Char} :
    rfindIdx c l = none ↔ c ∉ l := by
  induction l with
  | nil => simp [rfindIdx]
  | cons a l ih =>
    simp only [rfindIdx, List.mem_cons]
    rcases h : rfindIdx c l with _ | i
    · have : c ∉ l := ih.mp h
      by_cases hac : a = c <;> simp [hac, this]
      exact fun h' => (hac h'.symm).elim
    · have : c ∈ l := by
        by_contra hc
        rw [ih.mpr hc] at h
        exact Option.noConfusion h
      simp [this]

lemma rfindIdx_append {c : Char} {l r : List Char} (h : c ∉ r) :
    rfindIdx c (l ++ r) = rfindIdx c l := by
  induction l with
  | nil => simpa [rfindIdx] using rfindIdx_eq_none.mpr h
  | cons a l ih => simp [rfindIdx, ih]

lemma rfindIdx_append_cons {c : Char} {l r : List Char} (h : c ∉ r) :
    rfindIdx c (l ++ c :: r) = some l.length := by
  induction l with
  | nil => simp [rfindIdx, rfindIdx_eq_none.mpr h]
  | cons a l ih => simp [rfindIdx, ih]

lemma cleanup_file_eq (fs : FS) (p : Str) (fault : Bool) :
    cleanup_file fs p fault = if fault then fs else fs.filter (fun q => q != p) := by
  rcases fault with _ | _
  · by_cases hp : os_path_exists fs p
    · have hmem : p ∈ fs := by simpa [os_path_exists] using hp
      simp [cleanup_file, cleanup_body, os_remove, hp, hmem]
    · have hnot : p ∉ fs := by
        simpa [os_path_exists] using hp
      have : fs.filter (fun q => q != p) = fs := by
        refine List.filter_eq_self.mpr fun a ha => ?_
        simp only [bne_iff_ne, ne_eq, decide_eq_true_eq]
        rintro rfl
        exact hnot ha
      simp [cleanup_file, cleanup_body, hp, this]
  · by_cases hp : os_path_exists fs p <;>
      simp [cleanup_file, cleanup_body, os_remove, hp]

lemma mem_cleanup_file {fs : FS} {p q : Str} {fault : Bool} :
    q ∈ cleanup_file fs p fault ↔ q ∈ fs ∧ (q = p → fault = true) := by
  rw [cleanup_file_eq]
  rcases fault with _ | _
  · simp only [if_neg (Bool.false_ne_true), List.mem_filter, bne_iff_ne, ne_eq,
      decide_eq_true_eq]
    constructor
    · rintro ⟨h1, h2⟩; exact ⟨h1, fun h => (h2 h).elim⟩
    · rintro ⟨h1, h2⟩; exact ⟨h1, fun h => Bool.false_ne_true (h2 h)⟩
  · simp

lemma mem_foldl_cleanup (paths : List Str) (fs : FS) (fault : Str → Bool) (q : Str) :
    q ∈ paths.foldl (fun acc x => cleanup_file acc x (fault x)) fs ↔
      q ∈ fs ∧ (q ∈ paths → fault q = true) := by
  induction paths generalizing fs with
  | nil => simp
  | cons x xs ih =>
    simp only [List.foldl_cons, ih, mem_cleanup_file, List.mem_cons]
    by_cases hx : q = x
    · subst hx
      by_cases hf : fault q = true <;> simp [hf]
    · simp only [hx, false_implies, and_true, false_or]

lemma startup_sweep_eq_foldl (entries : List Str) (fs : FS) (fault : Str → Bool) :
    startup_sweep entries fs fault =
      (entries.map (fun name => downloadsDirSlash ++ name)).foldl
        (fun acc x => cleanup_file acc x (fault x)) fs := by
  rw [startup_sweep, List.foldl_map]

lemma splitext_prepare {i e : List Char} (hi : i ≠ []) (hdi : '.' ∉ i)
    (hsi : '/' ∉ i) (hde : '.' ∉ e) (hse : '/' ∉ e) :
    os_path_splitext (downloadsDirSlash ++ (i ++ '.' :: e)) =
      (downloadsDirSlash ++ i, '.' :: e) := by
  have hdl : downloadsDirSlash.length = 15 := by decide
  have hslash : rfindIdx '/' (downloadsDirSlash ++ (i ++ '.' :: e)) = some 14 := by
    rw [rfindIdx_append]
    · decide
    · simp only [List.mem_append, List.mem_cons]
      rintro (h | h | h)
      · exact hsi h
      · exact absurd h (by decide)
      · exact hse h
  have hassoc : downloadsDirSlash ++ (i ++ '.' :: e) =
      (downloadsDirSlash ++ i) ++ '.' :: e := by
    rw [List.append_assoc]
  have hlen : (downloadsDirSlash ++ i).length = 15 + i.length := by
    rw [List.length_append, hdl]
  have hdot : rfindIdx '.' (downloadsDirSlash ++ (i ++ '.' :: e)) =
      some (15 + i.length) := by
    rw [hassoc, rfindIdx_append_cons hde, hlen]
  have hseg : (downloadsDirSlash ++ (i ++ '.' :: e)).drop 15 = i ++ '.' :: e := by
    rw [show (15 : Nat) = downloadsDirSlash.length from hdl.symm, List.drop_left]
  have hany : (i ++ '.' :: e).take i.length = i := List.take_left i _
  have htake : (downloadsDirSlash ++ (i ++ '.' :: e)).take (15 + i.length) =
      downloadsDirSlash ++ i := by
    rw [hassoc, ← hlen, List.take_left]
  have hdropAll : (downloadsDirSlash ++ (i ++ '.' :: e)).drop (15 + i.length) =
      '.' :: e := by
    rw [hassoc, ← hlen, List.drop_left]
  have hnonDot : i.any (fun ch => ch != '.') = true := by
    rcases i with _ | ⟨a, i'⟩
    · exact (hi rfl).elim
    · refine List.any_eq_true.mpr ⟨a, List.mem_cons_self a i', ?_⟩
      simp only [bne_iff_ne, ne_eq, decide_eq_true_eq]
      rintro rfl
      exact hdi (List.mem_cons_self _ _)
  have hlt : (((14 : Nat) : Int)) < ((15 + i.length : Nat) : Int) := by
    exact_mod_cast (by omega : (14 : Nat) < 15 + i.length)
  have h15 : (((14 : Nat) : Int) + 1).toNat = 15 := by decide
  have htoNat : (((15 + i.length : Nat) : Int)).toNat = 15 + i.length := by
    omega
  have hsub : 15 + i.length - 15 = i.length := by omega
  rw [os_path_splitext, splitextList]
  simp only [hslash, hdot, optIdx, if_pos hlt, h15, htoNat, hseg, hsub, hany,
    if_pos hnonDot, htake, hdropAll]

lemma not_mem_cleanup_file_self (fs : FS) (p : Str) :
    p ∉ cleanup_file fs p false := by
  intro h
  have := mem_cleanup_file.mp h
  exact Bool.false_ne_true (this.2 rfl)

lemma cleanup_file_of_not_mem {fs : FS} {p : Str} (f : Bool) (h : p ∉ fs) :
    cleanup_file fs p f = fs := by
  rw [cleanup_file_eq]
  rcases f with _ | _
  · refine List.filter_eq_self.mpr fun a ha => ?_
    simp only [bne_iff_ne, ne_eq, decide_eq_true_eq]
    rintro rfl
    exact h ha
  · rfl

/-! Claim theorems. -/

/-- C5: `Release` (`cleanup_file`) never raises — on an absent path even its
`try` body raises nothing and the call is a no-op, so the second of two
successive calls on the same path does nothing; and a call for path `p`
never deletes or modifies any other file `q`. -/
theorem C5_release_idempotent (fs : FS) (p q : Str) (f1 f2 : Bool) (hq : q ≠ p) :
    (p ∉ fs → cleanup_body fs p f1 = .ok fs ∧ cleanup_file fs p f1 = fs)
    ∧ (q ∈ cleanup_file fs p f1 ↔ q ∈ fs)
    ∧ cleanup_file (cleanup_file fs p false) p f2 = cleanup_file fs p false := by
  refine ⟨fun hp => ?_, ?_, ?_⟩
  · have he : os_path_exists fs p = false := by simpa [os_path_exists] using hp
    exact ⟨by simp [cleanup_body, he], cleanup_file_of_not_mem f1 hp⟩
  · rw [mem_cleanup_file]
    constructor
    · exact fun h => h.1
    · exact fun h => ⟨h, fun habs => (hq habs).elim⟩
  · exact cleanup_file_of_not_mem f2 (not_mem_cleanup_file_self fs p)

/-- C5 witness: concrete double release of `temp_downloads/a.mp4` with a
second file `temp_downloads/b.mp4` untouched. -/
theorem C5_release_idempotent_witness :
    ("temp_downloads/b.mp4".data ≠ "temp_downloads/a.mp4".data)
    ∧ (("temp_downloads/a.mp4".data : Str) ∉
          (["temp_downloads/a.mp4".data, "temp_downloads/b.mp4".data] : FS) →
        cleanup_body ["temp_downloads/a.mp4".data, "temp_downloads/b.mp4".data]
            "temp_downloads/a.mp4".data false =
          .ok ["temp_downloads/a.mp4".data, "temp_downloads/b.mp4".data]
        ∧ cleanup_file ["temp_downloads/a.mp4".data, "temp_downloads/b.mp4".data]
            "temp_downloads/a.mp4".data false =
          ["temp_downloads/a.mp4".data, "temp_downloads/b.mp4".data])
    ∧ ("temp_downloads/b.mp4".data ∈
        cleanup_file ["temp_downloads/a.mp4".data, "temp_downloads/b.mp4".data]
          "temp_downloads/a.mp4".data false ↔
        "temp_downloads/b.mp4".data ∈
          (["temp_downloads/a.mp4".data, "temp_downloads/b.mp4".data] : FS))
    ∧ cleanup_file
        (cleanup_file ["temp_downloads/a.mp4".data, "temp_downloads/b.mp4".data]
          "temp_downloads/a.mp4".data false)
        "temp_downloads/a.mp4".data false =
      cleanup_file ["temp_downloads/a.mp4".data, "temp_downloads/b.mp4".data]
        "temp_downloads/a.mp4".data false := by
  refine ⟨by decide, ?_⟩
  exact C5_release_idempotent
    ["temp_downloads/a.mp4".data, "temp_downloads/b.mp4".data]
    "temp_downloads/a.mp4".data "temp_downloads/b.mp4".data false false (by decide)

/-- C8: the startup sweep (lines 193-194) deletes every entry of the download
directory whose deletion does not fault, so with no faults the directory is
empty before the first request is accepted; a faulting deletion is caught per
file and the remaining entries are still removed. -/
theorem C8_startup_sweep (entries : List Str) (fs : FS) (fault : Str → Bool)
    (hfs : fs = entries.map (fun name => downloadsDirSlash ++ name)) :
    ((∀ p ∈ fs, fault p = false) → startup_sweep entries fs fault = [])
    ∧ (∀ p ∈ fs, fault p = false → p ∉ startup_sweep entries fs fault) := by
  constructor
  · intro hall
    rw [startup_sweep_eq_foldl]
    refine List.eq_nil_iff_forall_not_mem.mpr fun q hmem => ?_
    have h := (mem_foldl_cleanup _ fs fault q).mp hmem
    have hq : q ∈ fs := h.1
    have : fault q = true := h.2 (hfs ▸ hq)
    rw [hall q hq] at this
    exact Bool.false_ne_true this
  · intro p hp hf hmem
    rw [startup_sweep_eq_foldl] at hmem
    have h := (mem_foldl_cleanup _ fs fault p).mp hmem
    have : fault p = true := h.2 (hfs ▸ hp)
    rw [hf] at this
    exact Bool.false_ne_true this

/-- C8 witness: a stray file `old.mp4` left from a prior run is gone after
the sweep. -/
theorem C8_startup_sweep_witness :
    ((["temp_downloads/old.mp4".data] : FS) =
      (["old.mp4".data] : List Str).map (fun name => downloadsDirSlash ++ name))
    ∧ ((∀ p ∈ (["temp_downloads/old.mp4".data] : FS), (fun _ => false) p = false) →
        startup_sweep ["old.mp4".data] ["temp_downloads/old.mp4".data]
          (fun _ => false) = [])
    ∧ (∀ p ∈ (["temp_downloads/old.mp4".data] : FS), (fun _ => false) p = false →
        p ∉ startup_sweep ["old.mp4".data] ["temp_downloads/old.mp4".data]
          (fun _ => false)) := by
  refine ⟨by decide, ?_⟩
  exact C8_startup_sweep ["old.mp4".data] ["temp_downloads/old.mp4".data]
    (fun _ => false) (by decide)

/-- C3: any `/info` or `/download` request whose parsed host contains neither
`youtube.com` nor `youtu.be` as a substring is answered 400 `Invalid YouTube
URL` and the extractor is never invoked. -/
theorem C3_invalid_host_rejected (netlocOf : Str → Option Str) (url netloc : Str)
    (hn : netlocOf (pyStrip url) = some netloc)
    (h1 : subOf "youtube.com".data netloc = false)
    (h2 : subOf "youtu.be".data netloc = false) :
    ∀ (oracle : InfoOutcome) (fs : FS) (env : Option Str) (fmt : String)
      (itag : Option String) (fetch : YdlOpts → Str → FetchOutcome),
      get_video_info netlocOf url oracle =
        ⟨.badRequest "Invalid YouTube URL".data, false⟩
      ∧ download_video netlocOf fs env url fmt itag fetch =
        ⟨.badRequest "Invalid YouTube URL".data, fs, false, none⟩ := by
  intro oracle fs env fmt itag fetch
  have hv : is_valid_youtube_url netlocOf (pyStrip url) = false := by
    simp [is_valid_youtube_url, hn, domains, h1, h2]
  constructor
  · simp [get_video_info, hv]
  · simp [download_video, hv]

/-- C3 witness: a vimeo URL is rejected by both handlers with the extractor
left uncalled. -/
theorem C3_invalid_host_rejected_witness :
    ((fun _ : Str => some "vimeo.com".data) (pyStrip "https://vimeo.com/123".data) =
      some "vimeo.com".data)
    ∧ subOf "youtube.com".data "vimeo.com".data = false
    ∧ subOf "youtu.be".data "vimeo.com".data = false
    ∧ get_video_info (fun _ => some "vimeo.com".data) "https://vimeo.com/123".data
        (.err "never".data) =
      ⟨.badRequest "Invalid YouTube URL".data, false⟩
    ∧ download_video (fun _ => some "vimeo.com".data) [] none
        "https://vimeo.com/123".data "mp4" none (fun _ _ => .err [] []) =
      ⟨.badRequest "Invalid YouTube URL".data, [], false, none⟩ := by
  refine ⟨by decide, by decide, by decide, ?_⟩
  exact C3_invalid_host_rejected (fun _ => some "vimeo.com".data)
    "https://vimeo.com/123".data "vimeo.com".data (by decide) (by decide) (by decide)
    (.err "never".data) [] none "mp4" none (fun _ _ => .err [] [])

/-- A parsed-host oracle and URL used by several concrete instances below. -/
def netlocYT : Str → Option Str := fun _ => some "www.youtube.com".data

/-- A raw format with a present stream URL but an absent `vcodec` key. -/
def fmtC2 : RawFormat :=
  { format_id := some "18".data
    ext := some "mp4".data
    resolution := none
    height := none
    filesize := none
    format_note := none
    url := some "http://stream".data
    vcodec := none }

/-- Raw `/info` metadata whose only format is `fmtC2`. -/
def infoC2 : RawInfo :=
  { id := some "x1".data
    title := some "T".data
    webpage_url := some "https://youtube.com/watch?v=x1".data
    duration := some 10
    thumbnail := none
    channel := none
    uploader := none
    formats := some [fmtC2] }

/-- C2 counterexample: a format whose `vcodec` key is absent — not the
string `none`, but not a present codec either — passes line 94's filter and
is surfaced by `/info`, so the encoding list is not restricted to entries
with a non-absent video codec. -/
theorem C2_counterexample :
    fmtC2.vcodec = none
    ∧ formatFilter fmtC2 = true
    ∧ (get_video_info netlocYT "https://www.youtube.com/watch?v=x1".data
        (.ok infoC2)).result =
      .detail
        { id := some "x1".data
          title := some "T".data
          url := some "https://youtube.com/watch?v=x1".data
          duration := some 10
          thumbnail := none
          channel := []
          formats := [translateFormat fmtC2] } := by
  refine ⟨rfl, by decide, by decide⟩

/-- C2 amended: every entry surfaced by `/info` comes from a raw format with
a truthy (present and non-empty) stream URL and a video codec that is not
explicitly the string `none`; a format whose codec is absent may still be
surfaced. -/
theorem C2_amended_formats (netlocOf : Str → Option Str) (url netloc : Str)
    (info : RawInfo)
    (hne : (pyStrip url).isEmpty = false)
    (hn : netlocOf (pyStrip url) = some netloc)
    (hd : subOf "youtube.com".data netloc = true ∨ subOf "youtu.be".data netloc = true) :
    (get_video_info netlocOf url (.ok info)).result =
      .detail
        { id := info.id
          title := info.title
          url := info.webpage_url
          duration := info.duration
          thumbnail := info.thumbnail
          channel := pyOrStr info.channel (info.uploader.getD [])
          formats := ((info.formats.getD []).filter formatFilter).map translateFormat }
    ∧ ∀ f ∈ (info.formats.getD []).filter formatFilter,
        pyTruthyStr f.url = true ∧ f.vcodec ≠ some "none".data := by
  have hv : is_valid_youtube_url netlocOf (pyStrip url) = true := by
    rcases hd with h | h <;> simp [is_valid_youtube_url, hn, domains, h]
  constructor
  · simp [get_video_info, hne, hv]
  · intro f hf
    have hfil : formatFilter f = true := (List.mem_filter.mp hf).2
    rw [formatFilter, Bool.and_eq_true] at hfil
    refine ⟨hfil.1, ?_⟩
    have := hfil.2
    simp only [Bool.not_eq_eq_eq_not, Bool.not_true, beq_eq_false_iff_ne, ne_eq] at this
    exact this

/-- C2 amended, witness: the concrete `/info` run on `infoC2`. -/
theorem C2_amended_formats_witness :
    ((pyStrip "https://www.youtube.com/watch?v=x1".data).isEmpty = false)
    ∧ (netlocYT (pyStrip "https://www.youtube.com/watch?v=x1".data) =
        some "www.youtube.com".data)
    ∧ (subOf "youtube.com".data "www.youtube.com".data = true
        ∨ subOf "youtu.be".data "www.youtube.com".data = true)
    ∧ ((get_video_info netlocYT "https://www.youtube.com/watch?v=x1".data
          (.ok infoC2)).result =
        .detail
          { id := infoC2.id
            title := infoC2.title
            url := infoC2.webpage_url
            duration := infoC2.duration
            thumbnail := infoC2.thumbnail
            channel := pyOrStr infoC2.channel (infoC2.uploader.getD [])
            formats :=
              ((infoC2.formats.getD []).filter formatFilter).map translateFormat }
        ∧ ∀ f ∈ (infoC2.formats.getD []).filter formatFilter,
            pyTruthyStr f.url = true ∧ f.vcodec ≠ some "none".data) := by
  refine ⟨by decide, by decide, by decide, ?_⟩
  exact C2_amended_formats netlocYT "https://www.youtube.com/watch?v=x1".data
    "www.youtube.com".data infoC2 (by decide) (by decide) (by decide)

lemma formatVideos_ok :
    ∀ {entries : List (Option RawVideo)} {vs : List VideoSummary},
      formatVideos entries = .ok vs →
      vs.length ≤ entries.length ∧
        ∀ v ∈ vs, ∃ rv t, some rv ∈ entries ∧ v = mkSummary rv t := by
  intro entries
  induction entries with
  | nil =>
    intro vs h
    rw [formatVideos] at h
    cases h
    simp
  | cons v rest ih =>
    intro vs h
    match v with
    | none =>
      rw [formatVideos] at h
      obtain ⟨hlen, hmem⟩ := ih h
      refine ⟨Nat.le_succ_of_le hlen, fun w hw => ?_⟩
      obtain ⟨rv, t, hm, he⟩ := hmem w hw
      exact ⟨rv, t, List.mem_cons_of_mem _ hm, he⟩
    | some rv =>
      rcases hgt : getThumb rv with e | t
      · rw [formatVideos] at h
        rw [hgt] at h
        cases h
      · rcases hfr : formatVideos rest with e | tail
        · rw [formatVideos] at h
          rw [hgt, hfr] at h
          cases h
        · rw [formatVideos] at h
          rw [hgt, hfr] at h
          cases h
          obtain ⟨hlen, hmem⟩ := ih hfr
          constructor
          · simpa using Nat.succ_le_succ hlen
          · intro w hw
            rcases List.mem_cons.mp hw with rfl | hw'
            · exact ⟨rv, t, List.mem_cons_self _ _, rfl⟩
            · obtain ⟨rv', t', hm, he⟩ := hmem w hw'
              exact ⟨rv', t', List.mem_cons_of_mem _ hm, he⟩

/-- A raw search entry with no `id` key. -/
def rvNoId : RawVideo :=
  { id := none, title := some "t".data, duration := none, thumbnails := none,
    channel := none, uploader := none }

/-- The `/search` response entry produced for `rvNoId`. -/
def sumNoId : VideoSummary :=
  { id := none, title := some "t".data, url := "https://youtu.be/None".data,
    duration := none, thumbnail := [], channel := "Unknown".data }

/-- C7 counterexample: for an extractor entry without an `id`, `/search`
still returns an entry — its `id` is absent (not a non-empty string) and its
`url` is the literal `https://youtu.be/None`, Python's rendering of `None`,
not the prefix followed by an id. -/
theorem C7_counterexample :
    search_video "lofi".data (.ok (some [some rvNoId])) = .videos [sumNoId]
    ∧ sumNoId.id = none
    ∧ sumNoId.url = "https://youtu.be/".data ++ "None".data := by
  refine ⟨by decide, rfl, by decide⟩

/-- Does a raw entry carry a non-empty `id` (falsy entries are exempt, the
loop skips them)? -/
def entryIdOk : Option RawVideo → Bool
  | none => true
  | some rv => !(rv.id.getD []).isEmpty

/-- C7 amended: the handler itself neither truncates nor checks ids — it
returns one entry per non-falsy extractor entry, so the 20-entry bound holds
exactly when the extractor honours the `ytsearch20` limit, and a non-empty id
holds exactly when the extractor supplies one; under those adapter-contract
hypotheses every returned entry has a non-empty id and a url equal to
`https://youtu.be/` followed by that id. -/
theorem C7_amended_search_shape (query : Str) (entries : List (Option RawVideo))
    (vs : List VideoSummary)
    (hq : (pyStrip query).isEmpty = false)
    (hlen : entries.length ≤ 20)
    (hid : entries.all entryIdOk = true)
    (hok : search_video query (.ok (some entries)) = .videos vs) :
    vs.length ≤ 20
    ∧ ∀ v ∈ vs, v.id ≠ none ∧ v.id.getD [] ≠ []
        ∧ v.url = "https://youtu.be/".data ++ v.id.getD [] := by
  rw [search_video] at hok
  simp only [hq, Bool.false_eq_true, if_false, Option.getD_some] at hok
  rcases hfv : formatVideos entries with e | ws
  · rw [hfv] at hok
    cases hok
  · rw [hfv] at hok
    cases hok
    obtain ⟨hl, hmem⟩ := formatVideos_ok hfv
    refine ⟨le_trans hl hlen, fun v hv => ?_⟩
    obtain ⟨rv, t, hm, rfl⟩ := hmem v hv
    have hok' : entryIdOk (some rv) = true := List.all_eq_true.mp hid _ hm
    rw [entryIdOk] at hok'
    have hne : rv.id.getD [] ≠ [] := by
      intro habs
      rw [habs] at hok'
      simp at hok'
    rcases hrv : rv.id with _ | s
    · rw [hrv] at hne
      exact (hne rfl).elim
    · refine ⟨by simp [mkSummary, hrv], ?_, ?_⟩
      · simpa [mkSummary] using hne
      · simp [mkSummary, hrv, pyFStrOpt]

/-- A well-behaved raw search entry with id `abc`. -/
def rvGood : RawVideo :=
  { id := some "abc".data, title := none, duration := none, thumbnails := none,
    channel := none, uploader := none }

/-- The `/search` response list produced for `[some rvGood]`. -/
def vsGood : List VideoSummary :=
  [{ id := some "abc".data, title := none, url := "https://youtu.be/abc".data,
     duration := none, thumbnail := [], channel := "Unknown".data }]

/-- C7 amended, witness: one well-formed extractor entry. -/
theorem C7_amended_search_shape_witness :
    ((pyStrip "lofi".data).isEmpty = false)
    ∧ ([some rvGood] : List (Option RawVideo)).length ≤ 20
    ∧ ([some rvGood] : List (Option RawVideo)).all entryIdOk = true
    ∧ search_video "lofi".data (.ok (some [some rvGood])) = .videos vsGood
    ∧ (vsGood.length ≤ 20
        ∧ ∀ v ∈ vsGood, v.id ≠ none ∧ v.id.getD [] ≠ []
            ∧ v.url = "https://youtu.be/".data ++ v.id.getD []) := by
  refine ⟨by decide, by decide, by decide, by decide, ?_⟩
  exact C7_amended_search_shape "lofi".data [some rvGood] vsGood (by decide)
    (by decide) (by decide) (by decide)

lemma formatVideos_err {entries : List (Option RawVideo)} {rv : RawVideo}
    (hmem : some rv ∈ entries) (hth : rv.thumbnails = some []) :
    ∃ e, formatVideos entries = .error e := by
  induction entries with
  | nil => cases hmem
  | cons v rest ih =>
    rcases List.mem_cons.mp hmem with rfl | hmem'
    · refine ⟨"IndexError: list index out of range".data, ?_⟩
      rw [formatVideos, getThumb, hth]
      rfl
    · match v with
      | none =>
        obtain ⟨e, he⟩ := ih hmem'
        exact ⟨e, by rw [formatVideos, he]⟩
      | some rv' =>
        rcases hgt : getThumb rv' with e | t
        · exact ⟨e, by rw [formatVideos, hgt]; rfl⟩
        · obtain ⟨e, he⟩ := ih hmem'
          exact ⟨e, by rw [formatVideos, hgt, he]; rfl⟩

/-- C10: if any non-falsy extractor entry carries an explicitly empty
`thumbnails` list, indexing `[-1]` raises `IndexError`, the handler's generic
`except` catches it, and the whole `/search` request becomes a 500
`Search failed` response — the other entries are discarded. -/
theorem C10_empty_thumbnails_500 (query : Str)
    (entries : List (Option RawVideo)) (rv : RawVideo)
    (hq : (pyStrip query).isEmpty = false)
    (hmem : some rv ∈ entries) (hth : rv.thumbnails = some []) :
    ∃ d, search_video query (.ok (some entries)) =
      .failure "Search failed".data d := by
  obtain ⟨e, he⟩ := formatVideos_err hmem hth
  refine ⟨e, ?_⟩
  rw [search_video]
  simp only [hq, Bool.false_eq_true, if_false, Option.getD_some, he]

/-- A raw search entry whose `thumbnails` key holds an explicitly empty
list. -/
def rvEmptyThumbs : RawVideo :=
  { id := some "ok".data, title := some "v".data, duration := none,
    thumbnails := some [], channel := none, uploader := none }

/-- C10 witness: one good entry plus one empty-thumbnails entry sink the
whole request. -/
theorem C10_empty_thumbnails_500_witness :
    ((pyStrip "music".data).isEmpty = false)
    ∧ some rvEmptyThumbs ∈ [some rvGood, some rvEmptyThumbs]
    ∧ rvEmptyThumbs.thumbnails = some []
    ∧ ∃ d, search_video "music".data (.ok (some [some rvGood, some rvEmptyThumbs])) =
        .failure "Search failed".data d := by
  refine ⟨by decide, by decide, by decide, ?_⟩
  exact C10_empty_thumbnails_500 "music".data [some rvGood, some rvEmptyThumbs]
    rvEmptyThumbs (by decide) (by decide) (by decide)

lemma download_video_called (netlocOf : Str → Option Str) (fs : FS)
    (env : Option Str) (url : Str) (fmt : String) (itag : Option String)
    (fetch : YdlOpts → Str → FetchOutcome)
    (hne : (pyStrip url).isEmpty = false)
    (hv : is_valid_youtube_url netlocOf (pyStrip url) = true) :
    (download_video netlocOf fs env url fmt itag fetch).optsUsed =
      some (build_ydl_opts (select_cookiefile fs env) fmt itag)
    ∧ (download_video netlocOf fs env url fmt itag fetch).adapterCalled = true := by
  simp only [download_video, hne, hv, Bool.not_true, Bool.or_false,
    Bool.false_eq_true, if_false]
  rcases fetch (build_ydl_opts (select_cookiefile fs env) fmt itag) (pyStrip url) with
    ⟨info, created⟩ | ⟨msg, created⟩
  · dsimp only
    split <;> exact ⟨rfl, rfl⟩
  · exact ⟨rfl, rfl⟩

lemma build_ydl_opts_cookiefile (ck : Option Str) (fmt : String)
    (itag : Option String) : (build_ydl_opts ck fmt itag).cookiefile = ck := by
  simp only [build_ydl_opts]
  split
  · rfl
  · rcases itag with _ | t
    · rfl
    · dsimp only
      split <;> rfl

lemma build_ydl_opts_mp3 (ck : Option Str) (itag : Option String) :
    (build_ydl_opts ck "mp3" itag).format = some "bestaudio/best"
    ∧ (build_ydl_opts ck "mp3" itag).postprocessors =
      [⟨"FFmpegExtractAudio", "mp3", "192"⟩] := by
  constructor <;> simp [build_ydl_opts]

/-- C9: when the requested format is `mp3`, the supplied `itag` is ignored:
the handler's entire output is identical for any two itag values, and the
option set built for the extractor is always `bestaudio/best` with the mp3
post-processor, so audio-extract mode has fixed precedence over
explicit-format mode. -/
theorem C9_mp3_overrides_itag (netlocOf : Str → Option Str) (fs : FS)
    (env : Option Str) (url : Str) (itag1 itag2 : Option String)
    (fetch : YdlOpts → Str → FetchOutcome) :
    download_video netlocOf fs env url "mp3" itag1 fetch =
      download_video netlocOf fs env url "mp3" itag2 fetch
    ∧ ∀ (ck : Option Str) (itag : Option String),
        (build_ydl_opts ck "mp3" itag).format = some "bestaudio/best"
        ∧ (build_ydl_opts ck "mp3" itag).postprocessors =
          [⟨"FFmpegExtractAudio", "mp3", "192"⟩] := by
  have hb : ∀ (ck : Option Str) (i1 i2 : Option String),
      build_ydl_opts ck "mp3" i1 = build_ydl_opts ck "mp3" i2 := by
    intro ck i1 i2
    simp [build_ydl_opts]
  constructor
  · simp only [download_video]
    rw [hb (select_cookiefile fs env) itag1 itag2]
  · exact fun ck itag => build_ydl_opts_mp3 ck itag

/-- C6: with `COOKIES_FILE` set to a path that does not exist, the extractor
is still invoked (the request is not failed for missing credentials) and the
option set passed to it carries no `cookiefile`. -/
theorem C6_missing_cookiefile (netlocOf : Str → Option Str) (url netloc : Str)
    (fs : FS) (p : Str) (fmt : String) (itag : Option String)
    (fetch : YdlOpts → Str → FetchOutcome)
    (hne : (pyStrip url).isEmpty = false)
    (hn : netlocOf (pyStrip url) = some netloc)
    (hd : subOf "youtube.com".data netloc = true ∨ subOf "youtu.be".data netloc = true)
    (hmiss : p ∉ fs) :
    select_cookiefile fs (some p) = none
    ∧ (download_video netlocOf fs (some p) url fmt itag fetch).optsUsed =
      some (build_ydl_opts none fmt itag)
    ∧ (build_ydl_opts none fmt itag).cookiefile = none
    ∧ (download_video netlocOf fs (some p) url fmt itag fetch).adapterCalled = true := by
  have hv : is_valid_youtube_url netlocOf (pyStrip url) = true := by
    rcases hd with h | h <;> simp [is_valid_youtube_url, hn, domains, h]
  have hc : os_path_exists fs p = false := by simpa [os_path_exists] using hmiss
  have hsel : select_cookiefile fs (some p) = none := by
    simp [select_cookiefile, hc]
  have hcalled := download_video_called netlocOf fs (some p) url fmt itag fetch hne hv
  rw [hsel] at hcalled
  exact ⟨hsel, hcalled.1, build_ydl_opts_cookiefile none fmt itag, hcalled.2⟩

/-- C6 witness: a missing `cookies.txt` does not stop a concrete download. -/
theorem C6_missing_cookiefile_witness :
    ((pyStrip "https://www.youtube.com/watch?v=a".data).isEmpty = false)
    ∧ (netlocYT (pyStrip "https://www.youtube.com/watch?v=a".data) =
        some "www.youtube.com".data)
    ∧ (subOf "youtube.com".data "www.youtube.com".data = true
        ∨ subOf "youtu.be".data "www.youtube.com".data = true)
    ∧ ("cookies.txt".data : Str) ∉ ([] : FS)
    ∧ select_cookiefile [] (some "cookies.txt".data) = none
    ∧ (download_video netlocYT [] (some "cookies.txt".data)
        "https://www.youtube.com/watch?v=a".data "mp4" none
        (fun _ _ => .err "e".data [])).optsUsed = some (build_ydl_opts none "mp4" none)
    ∧ (build_ydl_opts none "mp4" none).cookiefile = none
    ∧ (download_video netlocYT [] (some "cookies.txt".data)
        "https://www.youtube.com/watch?v=a".data "mp4" none
        (fun _ _ => .err "e".data [])).adapterCalled = true := by
  refine ⟨by decide, by decide, by decide, by decide, ?_⟩
  exact C6_missing_cookiefile netlocYT "https://www.youtube.com/watch?v=a".data
    "www.youtube.com".data [] "cookies.txt".data "mp4" none
    (fun _ _ => .err "e".data []) (by decide) (by decide) (by decide) (by decide)

/-- C4: for an `mp3` download the path handed to `send_file` is the fetched
file's prepared path with its native extension replaced by `.mp3`; for any
other format the prepared path is passed through unchanged. -/
theorem C4_mp3_extension_rewrite (netlocOf : Str → Option Str) (url netloc : Str)
    (fs : FS) (env : Option Str) (itag : Option String)
    (info : VideoInfo) (created : List Str)
    (hne : (pyStrip url).isEmpty = false)
    (hn : netlocOf (pyStrip url) = some netloc)
    (hd : subOf "youtube.com".data netloc = true ∨ subOf "youtu.be".data netloc = true)
    (hi : info.id ≠ []) (hdi : '.' ∉ info.id) (hsi : '/' ∉ info.id)
    (hde : '.' ∉ info.ext) (hse : '/' ∉ info.ext)
    (hcre : (downloadsDirSlash ++ info.id ++ ".mp3".data) ∈ created) :
    finalize_filename (prepare_filename info) "mp3" =
      downloadsDirSlash ++ info.id ++ ".mp3".data
    ∧ (∀ fmt : String, fmt ≠ "mp3" →
        finalize_filename (prepare_filename info) fmt = prepare_filename info)
    ∧ (download_video netlocOf fs env url "mp3" itag
        (fun _ _ => .ok info created)).result =
      .fileResponse (downloadsDirSlash ++ info.id ++ ".mp3".data) "audio/mp3"
        (info.title.take 50 ++ '.' :: "mp3".data) := by
  have hv : is_valid_youtube_url netlocOf (pyStrip url) = true := by
    rcases hd with h | h <;> simp [is_valid_youtube_url, hn, domains, h]
  have ha : finalize_filename (prepare_filename info) "mp3" =
      downloadsDirSlash ++ info.id ++ ".mp3".data := by
    rw [finalize_filename, if_pos rfl, prepare_filename,
      splitext_prepare hi hdi hsi hde hse, List.append_assoc]
  have hex : os_path_exists (fs ++ created)
      (downloadsDirSlash ++ info.id ++ ".mp3".data) = true := by
    have hm : (downloadsDirSlash ++ info.id ++ ".mp3".data) ∈ fs ++ created :=
      List.mem_append.mpr (Or.inr hcre)
    simpa [os_path_exists] using hm
  refine ⟨ha, fun fmt hfmt => by rw [finalize_filename, if_neg hfmt], ?_⟩
  simp only [download_video, hne, hv, Bool.not_true, Bool.or_false,
    Bool.false_eq_true, if_false, ha, hex, if_true]

/-- C4 witness: a fetched `temp_downloads/abc123.m4a` is finalized as
`temp_downloads/abc123.mp3` and streamed. -/
theorem C4_mp3_extension_rewrite_witness :
    ((pyStrip "https://youtu.be/abc123".data).isEmpty = false)
    ∧ ((fun _ : Str => some "youtu.be".data) (pyStrip "https://youtu.be/abc123".data) =
        some "youtu.be".data)
    ∧ (subOf "youtube.com".data "youtu.be".data = true
        ∨ subOf "youtu.be".data "youtu.be".data = true)
    ∧ (("abc123".data : Str) ≠ [] ∧ '.' ∉ ("abc123".data : Str)
        ∧ '/' ∉ ("abc123".data : Str) ∧ '.' ∉ ("m4a".data : Str)
        ∧ '/' ∉ ("m4a".data : Str))
    ∧ (downloadsDirSlash ++ "abc123".data ++ ".mp3".data) ∈
        ["temp_downloads/abc123.mp3".data]
    ∧ finalize_filename (prepare_filename ⟨"abc123".data, "m4a".data, "t".data⟩) "mp3" =
      downloadsDirSlash ++ "abc123".data ++ ".mp3".data
    ∧ (∀ fmt : String, fmt ≠ "mp3" →
        finalize_filename (prepare_filename ⟨"abc123".data, "m4a".data, "t".data⟩) fmt =
          prepare_filename ⟨"abc123".data, "m4a".data, "t".data⟩)
    ∧ (download_video (fun _ => some "youtu.be".data) [] none
        "https://youtu.be/abc123".data "mp3" none
        (fun _ _ => .ok ⟨"abc123".data, "m4a".data, "t".data⟩
          ["temp_downloads/abc123.mp3".data])).result =
      .fileResponse (downloadsDirSlash ++ "abc123".data ++ ".mp3".data) "audio/mp3"
        (("t".data : Str).take 50 ++ '.' :: "mp3".data) := by
  refine ⟨by decide, by decide, by decide, by decide, by decide, ?_⟩
  exact C4_mp3_extension_rewrite (fun _ => some "youtu.be".data)
    "https://youtu.be/abc123".data "youtu.be".data [] none none
    ⟨"abc123".data, "m4a".data, "t".data⟩ ["temp_downloads/abc123.mp3".data]
    (by decide) (by decide) (by decide) (by decide) (by decide) (by decide)
    (by decide) (by decide) (by decide)

/-- A fetch that raises after writing a partial file into the download
directory. -/
def fetchFailC1 : YdlOpts → Str → FetchOutcome :=
  fun _ _ => .err "boom".data ["temp_downloads/xyz.mp4.part".data]

/-- C1 counterexample: when the fetch fails after creating a file, the
handler answers 500 without any cleanup, so a file of the request is still
in the download directory after the request completes — the claimed
zero-files-after-completion invariant does not hold on the failure path. -/
theorem C1_counterexample :
    download_video netlocYT [] none "https://www.youtube.com/watch?v=xyz".data
        "mp4" none fetchFailC1 =
      ⟨.serverError "Download failed".data "boom".data,
        ["temp_downloads/xyz.mp4.part".data], true,
        some (build_ydl_opts none "mp4" none)⟩
    ∧ response_close (download_video netlocYT [] none
        "https://www.youtube.com/watch?v=xyz".data "mp4" none fetchFailC1) false =
      ["temp_downloads/xyz.mp4.part".data] := by
  exact ⟨by decide, by decide⟩

/-- C1 amended: on the success path — the fetch created exactly the streamed
file, at a path not previously present — the close callback deletes it and
the download directory returns to its pre-request contents; on the failure
path every file the failed fetch created stays in the directory (cleanup is
deferred to the next startup sweep). -/
theorem C1_amended_file_lifecycle (netlocOf : Str → Option Str) (url netloc : Str)
    (fs : FS) (env : Option Str) (fmt : String) (itag : Option String)
    (info : VideoInfo) (msg : Str) (created : List Str)
    (hne : (pyStrip url).isEmpty = false)
    (hn : netlocOf (pyStrip url) = some netloc)
    (hd : subOf "youtube.com".data netloc = true ∨ subOf "youtu.be".data netloc = true)
    (hfresh : finalize_filename (prepare_filename info) fmt ∉ fs) :
    response_close (download_video netlocOf fs env url fmt itag
        (fun _ _ => .ok info [finalize_filename (prepare_filename info) fmt])) false = fs
    ∧ (download_video netlocOf fs env url fmt itag
        (fun _ _ => .err msg created)).fs = fs ++ created := by
  have hv : is_valid_youtube_url netlocOf (pyStrip url) = true := by
    rcases hd with h | h <;> simp [is_valid_youtube_url, hn, domains, h]
  constructor
  · have hex : os_path_exists (fs ++ [finalize_filename (prepare_filename info) fmt])
        (finalize_filename (prepare_filename info) fmt) = true := by
      simp [os_path_exists]
    have h1 : fs.filter
        (fun q => q != finalize_filename (prepare_filename info) fmt) = fs :=
      List.filter_eq_self.mpr fun a ha => by
        simp only [bne_iff_ne, ne_eq, decide_eq_true_eq]
        rintro rfl
        exact hfresh ha
    simp only [response_close, download_video, hne, hv, Bool.not_true, Bool.or_false,
      Bool.false_eq_true, if_false, hex, if_true]
    rw [cleanup_file_eq]
    simp only [Bool.false_eq_true, if_false, List.filter_append, h1]
    simp
  · simp [download_video, hne, hv]

/-- C1 amended, witness: a successful mp4 download of `vid1` leaves an empty
directory after the response closes; a failed fetch leaves its partial file. -/
theorem C1_amended_file_lifecycle_witness :
    ((pyStrip "https://youtu.be/vid1".data).isEmpty = false)
    ∧ ((fun _ : Str => some "youtu.be".data) (pyStrip "https://youtu.be/vid1".data) =
        some "youtu.be".data)
    ∧ (subOf "youtube.com".data "youtu.be".data = true
        ∨ subOf "youtu.be".data "youtu.be".data = true)
    ∧ finalize_filename (prepare_filename ⟨"vid1".data, "mp4".data, "t".data⟩) "mp4" ∉
        ([] : FS)
    ∧ response_close (download_video (fun _ => some "youtu.be".data) [] none
        "https://youtu.be/vid1".data "mp4" none
        (fun _ _ => .ok ⟨"vid1".data, "mp4".data, "t".data⟩
          [finalize_filename (prepare_filename ⟨"vid1".data, "mp4".data, "t".data⟩) "mp4"]))
        false = ([] : FS)
    ∧ (download_video (fun _ => some "youtu.be".data) [] none
        "https://youtu.be/vid1".data "mp4" none
        (fun _ _ => .err "e".data ["temp_downloads/vid1.mp4.part".data])).fs =
      ([] : FS) ++ ["temp_downloads/vid1.mp4.part".data] := by
  refine ⟨by decide, by decide, by decide, by decide, ?_⟩
  exact C1_amended_file_lifecycle (fun _ => some "youtu.be".data)
    "https://youtu.be/vid1".data "youtu.be".data [] none "mp4" none
    ⟨"vid1".data, "mp4".data, "t".data⟩ "e".data
    ["temp_downloads/vid1.mp4.part".data] (by decide) (by decide) (by decide)
    (by decide)
